import Mathlib

/-!
Verification of the `ocr` repository's image-transform pipeline and OCR
orchestrator against its natural-language specification.

The definitions below are a shallow embedding of the Rust sources:
`src/src/main.rs` (the HTTP service: `ImageTransformer::transform`,
`TesseractOcrEngine::ocr`, `GoogleLensOcrEngine::ocr`, `OcrEngineManager::ocr`,
the `ocr` handler) and `src/transform-image/src/main.rs` (the CLI, whose
per-operation bodies are identical to the service's match arms).

Modelling conventions:
- `u8`/`u32` values are `Nat`; in the source no pipeline arithmetic overflows
  (`255 - v` on `u8` and the clamped crop arithmetic never underflow), so no
  modular reduction is needed.
- `f32`/`f64` arithmetic (Otsu statistics, Gaussian kernel) is modelled over
  `ℚ`; the claims settled here depend only on facts that are insensitive to
  the rounding difference (which index is produced by an argmax loop, image
  dimensions, control flow of assertions).
- Rust panics (`unwrap`, `assert!`) are modelled as `Except.error`; an
  `Except.error` escaping a definition corresponds to a panic of the request
  task, which is distinct from the handler's `BAD_REQUEST` (validation) and
  `INTERNAL_SERVER_ERROR` response paths.
-/

deriving instance DecidableEq for Except

/-- Pixel buffer of the `image` crate's `ImageLuma8` variant: row-major
8-bit intensities. -/
structure Luma8 where
  width : Nat
  height : Nat
  pixels : List Nat
deriving DecidableEq

/-- One RGB pixel of an `ImageRgb8` buffer. -/
structure Rgb where
  r : Nat
  g : Nat
  b : Nat
deriving DecidableEq

/-- One RGBA pixel of an `ImageRgba8` buffer. -/
structure Rgba where
  r : Nat
  g : Nat
  b : Nat
  a : Nat
deriving DecidableEq

/-- The `image` crate's `DynamicImage`, restricted to the three variants this
program constructs or consumes (`to_luma8`, `ImageLuma8`, `ImageRgba8`,
decoded RGB input). -/
inductive DynamicImage
  | luma8 (img : Luma8)
  | rgb8 (width height : Nat) (pixels : List Rgb)
  | rgba8 (width height : Nat) (pixels : List Rgba)
deriving DecidableEq

/-- Width accessor of `DynamicImage` (the crate's `width()`). -/
def DynamicImage.width : DynamicImage → Nat
  | .luma8 img => img.width
  | .rgb8 w _ _ => w
  | .rgba8 w _ _ => w

/-- Height accessor of `DynamicImage` (the crate's `height()`). -/
def DynamicImage.height : DynamicImage → Nat
  | .luma8 img => img.height
  | .rgb8 _ h _ => h
  | .rgba8 _ h _ => h

/-- The `image` crate's sRGB luma conversion for 8-bit channels:
`(2126 * r + 7152 * g + 722 * b) / 10000` with truncating integer division
(constants `SRGB_LUMA` and `SRGB_LUMA_DIV` in `image::color`). -/
def lumaFromRgb (r g b : Nat) : Nat :=
  (2126 * r + 7152 * g + 722 * b) / 10000

/-- The `image` crate's `DynamicImage::to_luma8`: identity on `Luma8`, sRGB
luma conversion on color buffers (alpha is dropped). -/
def DynamicImage.toLuma8 : DynamicImage → Luma8
  | .luma8 img => img
  | .rgb8 w h px => ⟨w, h, px.map fun p => lumaFromRgb p.r p.g p.b⟩
  | .rgba8 w h px => ⟨w, h, px.map fun p => lumaFromRgb p.r p.g p.b⟩

/-- The `image` crate's `DynamicImage::invert`: per-channel `255 - v`; for
RGBA the alpha channel is left unchanged (see `Pixel::invert` for `Rgba`). -/
def DynamicImage.invert : DynamicImage → DynamicImage
  | .luma8 ⟨w, h, px⟩ => .luma8 ⟨w, h, px.map fun v => 255 - v⟩
  | .rgb8 w h px => .rgb8 w h (px.map fun p => ⟨255 - p.r, 255 - p.g, 255 - p.b⟩)
  | .rgba8 w h px => .rgba8 w h (px.map fun p => ⟨255 - p.r, 255 - p.g, 255 - p.b, p.a⟩)

/-- `imageproc::contrast::threshold_mut`: every intensity `v` becomes `0`
(background) when `v ≤ thresh` and `255` (foreground) otherwise — the
threshold itself is assigned to the background. -/
def thresholdMut (img : Luma8) (thresh : Nat) : Luma8 :=
  ⟨img.width, img.height, img.pixels.map fun v => if v ≤ thresh then 0 else 255⟩

/-- Intensity histogram count of one bin, as used by
`imageproc::contrast::otsu_level` via `histogram`. -/
def histCount (pixels : List Nat) (v : Nat) : Nat :=
  (pixels.filter fun p => p = v).length

/-- Loop state of the `otsu_level` scan over the 256 histogram bins.
`broken = true` records that the Rust `break` (empty foreground) fired. -/
structure OtsuState where
  backgroundSum : ℚ
  backgroundWeight : ℚ
  largestVariance : ℚ
  bestThreshold : Nat
  broken : Bool
deriving DecidableEq

/-- One iteration of the `otsu_level` loop of `imageproc::contrast`, for bin
`threshold`: accumulate the background weight, `continue` while it is zero,
`break` when the foreground weight reaches zero, otherwise compare the
inter-class variance of this split against the best seen so far (strict
`>`). The source computes in `f64`; modelled exactly over `ℚ`. -/
def otsuStep (totalWeight totalPixelSum : ℚ) (hist : Nat → ℚ) (st : OtsuState)
    (threshold : Nat) : OtsuState :=
  if st.broken then st
  else
    let backgroundWeight := st.backgroundWeight + hist threshold
    if backgroundWeight = 0 then
      { st with backgroundWeight := backgroundWeight }
    else
      let foregroundWeight := totalWeight - backgroundWeight
      if foregroundWeight = 0 then
        { st with backgroundWeight := backgroundWeight, broken := true }
      else
        let backgroundSum := st.backgroundSum + (threshold : ℚ) * hist threshold
        let backgroundMean := backgroundSum / backgroundWeight
        let foregroundMean := (totalPixelSum - backgroundSum) / foregroundWeight
        let intraClassVariance :=
          backgroundWeight * foregroundWeight * (backgroundMean - foregroundMean) ^ 2
        if st.largestVariance < intraClassVariance then
          { backgroundSum := backgroundSum, backgroundWeight := backgroundWeight,
            largestVariance := intraClassVariance, bestThreshold := threshold,
            broken := false }
        else
          { st with backgroundSum := backgroundSum, backgroundWeight := backgroundWeight }

/-- `imageproc::contrast::otsu_level`: the variance-maximizing split point of
the grayscale intensity histogram, computed by a single scan over the 256
bins starting from `best_threshold = 0`. -/
def otsuLevel (img : Luma8) : Nat :=
  let totalWeight : ℚ := ((img.width * img.height : Nat) : ℚ)
  let hist : Nat → ℚ := fun v => (histCount img.pixels v : ℚ)
  let totalPixelSum : ℚ :=
    (List.range 256).foldl (fun (sum : ℚ) (t : Nat) => sum + (t : ℚ) * hist t) 0
  ((List.range 256).foldl (otsuStep totalWeight totalPixelSum hist) ⟨0, 0, 0, 0, false⟩).bestThreshold

/-- The clamping performed by the `image` crate's crop (`crop_dimms` in
`image::imageops`): the rectangle is intersected with the image bounds, so
crop never fails. -/
def cropDimms (iw ih x y w h : Nat) : Nat × Nat × Nat × Nat :=
  let cx := min x iw
  let cy := min y ih
  (cx, cy, min w (iw - cx), min h (ih - cy))

/-- Row-major copy of the clamped sub-rectangle performed by
`SubImage::to_image` after `crop_dimms` clamping. -/
def cropBuf (iw : Nat) (px : List α) (dflt : α) (x y w h : Nat) : List α :=
  (List.range (w * h)).map fun idx =>
    px.getD ((y + idx / w) * iw + (x + idx % w)) dflt

/-- The `image` crate's `DynamicImage::crop`: clamp the rectangle to the
image bounds and copy the sub-buffer, preserving the color model. -/
def DynamicImage.crop (img : DynamicImage) (x y w h : Nat) : DynamicImage :=
  match img with
  | .luma8 ⟨iw, ih, px⟩ =>
    match cropDimms iw ih x y w h with
    | (cx, cy, cw, ch) => .luma8 ⟨cw, ch, cropBuf iw px 0 cx cy cw ch⟩
  | .rgb8 iw ih px =>
    match cropDimms iw ih x y w h with
    | (cx, cy, cw, ch) => .rgb8 cw ch (cropBuf iw px ⟨0, 0, 0⟩ cx cy cw ch)
  | .rgba8 iw ih px =>
    match cropDimms iw ih x y w h with
    | (cx, cy, cw, ch) => .rgba8 cw ch (cropBuf iw px ⟨0, 0, 0, 0⟩ cx cy cw ch)

/-- RGBA view of a `DynamicImage`, as produced by the `GenericImageView`
blanket implementation used by `imageproc::drawing::draw_filled_rect` when it
reads a `DynamicImage` with `Rgba<u8>` pixels (luma `l` becomes
`(l, l, l, 255)`, RGB gains alpha `255`). -/
def DynamicImage.toRgbaPixels : DynamicImage → List Rgba
  | .luma8 ⟨_, _, px⟩ => px.map fun l => ⟨l, l, l, 255⟩
  | .rgb8 _ _ px => px.map fun p => ⟨p.r, p.g, p.b, 255⟩
  | .rgba8 _ _ px => px

/-- Membership of pixel `(px, py)` in the intersection of the requested
rectangle with the canvas, as computed by `Rect::intersect` inside
`imageproc::drawing::draw_filled_rect_mut` (signed coordinates; the rectangle
spans `[x, x + w)` by `[y, y + h)`). -/
def inRectIntersection (x y : Int) (w h : Nat) (px py : Nat) : Bool :=
  decide (x ≤ (px : Int)) && decide ((px : Int) < x + (w : Int)) &&
    decide (y ≤ (py : Int)) && decide ((py : Int) < y + (h : Int))

/-- `imageproc::drawing::draw_filled_rect` on a `DynamicImage` canvas: the
output is an RGBA copy of the image with every pixel inside the clipped
rectangle replaced by the fill color. `Rect::at(x, y).of_size(w, h)` asserts
`w > 0 && h > 0`, so zero extents panic (modelled by the caller). -/
def drawFilledRect (img : DynamicImage) (x y : Int) (w h : Nat) (r g b a : Nat) :
    DynamicImage :=
  let iw := img.width
  let fill : Rgba := ⟨r, g, b, a⟩
  .rgba8 iw img.height
    (List.zipWith
      (fun idx p => if inRectIntersection x y w h (idx % iw) (idx / iw) then fill else p)
      (List.range img.toRgbaPixels.length) img.toRgbaPixels)

/-- Truncated Taylor series standing in for the `f32` `exp` used by the
Gaussian kernel. The kernel length and the `assert!` control flow of
`gaussian_blur_f32` are modelled exactly; the transcendental weight values
cannot be represented exactly in an executable embedding, and no claim
settled in this file depends on them (only on dimensions and on the
assertion). -/
def expQ (x : ℚ) : ℚ :=
  (List.range 12).foldl (fun acc k => acc + x ^ k / (Nat.factorial k : ℚ)) 0

/-- The separable Gaussian kernel of `imageproc::filter::gaussian_blur_f32`:
radius `⌈2σ⌉`, normalized weights `exp(-x² / 2σ²)`. -/
def gaussianKernel (sigma : ℚ) : List ℚ :=
  let kernelRadius := (2 * sigma).ceil.toNat
  let raw := (List.range (2 * kernelRadius + 1)).map fun i =>
    expQ (-(((i : ℚ) - (kernelRadius : ℚ)) ^ 2) / (2 * sigma ^ 2))
  let sum := raw.foldl (fun acc v => acc + v) 0
  raw.map fun v => v / sum

/-- Clamp of an image coordinate to `[0, n - 1]`, the border-replication used
by `imageproc`'s separable filters (negative indices map to `0`). -/
def clampCoord (i : Int) (n : Nat) : Nat :=
  min i.toNat (n - 1)

/-- Clamp of the `f32` accumulator back to a `u8` subpixel
(`Clamp<f32> for u8`). -/
def clampToU8 (q : ℚ) : Nat :=
  min (max q.floor 0).toNat 255

/-- Horizontal pass of `imageproc`'s separable filter: each output pixel is
the kernel-weighted sum of the row neighborhood, with x-coordinates clamped
to the image. Dimensions are preserved. -/
def horizontalFilter (img : Luma8) (kernel : List ℚ) : Luma8 :=
  let w := img.width
  let radius := kernel.length / 2
  ⟨w, img.height, (List.range (w * img.height)).map fun idx =>
    clampToU8 ((List.range kernel.length).foldl
      (fun acc k => acc + kernel.getD k 0 *
        ((img.pixels.getD ((idx / w) * w + clampCoord ((idx % w : Nat) + (k : Int) - (radius : Int)) w) 0 : Nat) : ℚ))
      0)⟩

/-- Vertical pass of `imageproc`'s separable filter, symmetric to
`horizontalFilter`. -/
def verticalFilter (img : Luma8) (kernel : List ℚ) : Luma8 :=
  let w := img.width
  let radius := kernel.length / 2
  ⟨w, img.height, (List.range (w * img.height)).map fun idx =>
    clampToU8 ((List.range kernel.length).foldl
      (fun acc k => acc + kernel.getD k 0 *
        ((img.pixels.getD ((clampCoord ((idx / w : Nat) + (k : Int) - (radius : Int)) img.height) * w + idx % w) 0 : Nat) : ℚ))
      0)⟩

/-- `imageproc::filter::separable_filter_equal`: horizontal then vertical
pass with the same kernel. -/
def separableFilterEqual (img : Luma8) (kernel : List ℚ) : Luma8 :=
  verticalFilter (horizontalFilter img kernel) kernel

/-- `imageproc::filter::gaussian_blur_f32`: asserts `sigma > 0.0` (a panic
otherwise — the message of the `assert!`), then applies the separable
Gaussian. -/
def gaussianBlurF32 (img : Luma8) (sigma : ℚ) : Except String Luma8 :=
  if 0 < sigma then .ok (separableFilterEqual img (gaussianKernel sigma))
  else .error "sigma must be > 0.0"

/-- The `Operation` enum of `src/src/main.rs` (also the CLI subcommands of
`src/transform-image/src/main.rs`). `sigma` is the `f32` field modelled over
`ℚ`. -/
inductive Operation
  | invert
  | binarize (threshold : Nat)
  | otsuBinarize (invertThreshold : Bool)
  | crop (x y width height : Nat)
  | drawFilledRectangle (x y : Int) (width height : Nat) (r g b a : Nat)
  | gaussianBlur (sigma : ℚ)
deriving DecidableEq

/-- The threshold value applied by the `OtsuBinarize` arm:
`invert_threshold ? 255 - otsu_level : otsu_level`. -/
def otsuThresholdValue (invertThreshold : Bool) (img : DynamicImage) : Nat :=
  let level := otsuLevel img.toLuma8
  match invertThreshold with
  | true => 255 - level
  | false => level

/-- One arm of the `match` inside `ImageTransformer::transform` (identical to
the corresponding CLI arm in `src/transform-image/src/main.rs`). The only
error is the panic of `gaussian_blur_f32`'s assertion and of
`Rect::of_size` on a zero extent; every other arm is total — in particular
`Crop` clamps instead of failing. -/
def applyOperation (op : Operation) (img : DynamicImage) : Except String DynamicImage :=
  match op with
  | .invert => .ok img.invert
  | .binarize threshold => .ok (.luma8 (thresholdMut img.toLuma8 threshold))
  | .otsuBinarize invertThreshold =>
    .ok (.luma8 (thresholdMut img.toLuma8 (otsuThresholdValue invertThreshold img)))
  | .crop x y w h => .ok (img.crop x y w h)
  | .drawFilledRectangle x y w h r g b a =>
    if w = 0 ∨ h = 0 then .error "width and height must be strictly positive"
    else .ok (drawFilledRect img x y w h r g b a)
  | .gaussianBlur sigma => (gaussianBlurF32 img.toLuma8 sigma).map .luma8

/-- `ImageTransformer::transform`: the operations are applied to the image
buffer strictly in input order; a panic (modelled as `Except.error`) aborts
the loop. -/
def transform (img : DynamicImage) : List Operation → Except String DynamicImage
  | [] => .ok img
  | op :: rest =>
    match applyOperation op img with
    | .ok next => transform next rest
    | .error e => .error e

/-- The `OcrEngine` enum of `src/src/main.rs`. -/
inductive OcrEngine
  | tesseract
  | googleLens
deriving DecidableEq

/-- One word of the Lens text layout (`plain_text` plus the optional
`text_separator`), from the decoded `LensOverlayServerResponse`. -/
structure LensWord where
  plain_text : String
  text_separator : Option String
deriving DecidableEq

/-- One line of the Lens text layout. -/
structure LensLine where
  words : List LensWord
deriving DecidableEq

/-- One paragraph of the Lens text layout. -/
structure LensParagraph where
  lines : List LensLine
deriving DecidableEq

/-- The `text_layout` message: paragraphs of lines of words. -/
structure LensTextLayout where
  paragraphs : List LensParagraph
deriving DecidableEq

/-- The `text` message of the objects response, with its optional
`text_layout`. -/
structure LensText where
  text_layout : Option LensTextLayout
deriving DecidableEq

/-- The `objects_response` message, restricted to the `text` field this code
reads. -/
structure LensObjectsResponse where
  text : Option LensText
deriving DecidableEq

/-- The decoded `LensOverlayServerResponse`, restricted to the
`objects_response` field this code reads. -/
structure LensServerResponse where
  objects_response : Option LensObjectsResponse
deriving DecidableEq

/-- The word walk of `GoogleLensOcrEngine::ocr`: push the word's
`plain_text`, then its separator when present. -/
def pushWord (acc : String) (w : LensWord) : String :=
  match w.text_separator with
  | some sep => acc ++ w.plain_text ++ sep
  | none => acc ++ w.plain_text

/-- The nested loops of `GoogleLensOcrEngine::ocr` over
`paragraphs → lines → words`, with `result.push('\n')` after each
paragraph, starting from the empty `result`. -/
def extractFromLayout (layout : LensTextLayout) : String :=
  layout.paragraphs.foldl
    (fun acc p => (p.lines.foldl (fun acc2 l => l.words.foldl pushWord acc2) acc) ++ "\n")
    ""

/-- The text built by `GoogleLensOcrEngine::ocr` from a successfully decoded
response: the layout walk when every optional field is present, the empty
string otherwise. The surrounding function returns this as `Ok`. -/
def googleLensExtract (response : LensServerResponse) : String :=
  match response.objects_response with
  | none => ""
  | some objects =>
    match objects.text with
    | none => ""
    | some text =>
      match text.text_layout with
      | none => ""
      | some layout => extractFromLayout layout

/-- Tail of `GoogleLensOcrEngine::ocr` after a successful HTTP exchange and
protobuf decode: the extracted text is returned as `Ok`. -/
def googleLensResultOfResponse (response : LensServerResponse) : Except String String :=
  .ok (googleLensExtract response)

/-- `OcrEngineManager::ocr`: dispatch on the engine. The Tesseract branch
wraps the (infallible-signature) local call in `Ok`; the Google Lens branch
propagates the remote result. The engine outputs are parameters because the
native handle and the network are outside the program. -/
def ocrEngineManagerOcr (tesseractText : String) (googleLensResult : Except String String) :
    OcrEngine → Except String String
  | .tesseract => .ok tesseractText
  | .googleLens => googleLensResult

/-- Outcome of the `ocr` axum handler: the `BAD_REQUEST` branch (decode
failure), the `INTERNAL_SERVER_ERROR` branch (engine `Err`), a panic
escaping the handler task, or `OK` with the text that was passed unchanged
to `websocket_server.send_message`. -/
inductive HandlerOutcome
  | badRequest (e : String)
  | internalServerError (e : String)
  | panicked (e : String)
  | okDelivered (text : String)
deriving DecidableEq

/-- The `ocr` handler of `src/src/main.rs`: decode the multipart request
(`Err` becomes `BAD_REQUEST`), transform the image (panics escape), run the
selected engine (`Err` becomes `INTERNAL_SERVER_ERROR`), and on success hand
the engine text unchanged to `send_message` and respond `OK`. -/
def ocrHandler (decoded : Except String (DynamicImage × OcrEngine × List Operation))
    (tesseractText : String) (googleLensResult : Except String String) : HandlerOutcome :=
  match decoded with
  | .error e => .badRequest e
  | .ok (img, engine, ops) =>
    match transform img ops with
    | .error e => .panicked e
    | .ok _ =>
      match ocrEngineManagerOcr tesseractText googleLensResult engine with
      | .error e => .internalServerError e
      | .ok text => .okDelivered text

/-- Split of a character stream into lines at the newline character, keeping
the line structure (helper of the spec-modelled normalizer). -/
def splitLinesAux (cs : List Char) : List (List Char) :=
  match cs with
  | [] => [[]]
  | c :: rest =>
    let r := splitLinesAux rest
    if c = '\n' then [] :: r
    else (c :: r.headD []) :: r.tail

/-- Rejoin of normalized lines with the newline character (helper of the
spec-modelled normalizer). -/
def joinLinesAux (lines : List (List Char)) : List Char :=
  match lines with
  | [] => []
  | [l] => l
  | l :: rest => l ++ '\n' :: joinLinesAux rest

/-- Modelled from the spec: the Result Normalizer of §4.4 — "within each
output line, remove all whitespace characters (not only leading/trailing);
line breaks are preserved". No such normalization exists anywhere under
`src/`; this definition follows the spec's words and is compared against the
source-derived delivery path. -/
def specNormalize (s : String) : String :=
  String.mk (joinLinesAux ((splitLinesAux s.toList).map fun line =>
    line.filter fun c => !c.isWhitespace))

/-- Modelled from the spec: §4.1's contract for `Crop` — "fails with
ValidationError if the rectangle is not fully contained in the current image
bounds", otherwise the sub-image. Compared against the source-derived
`DynamicImage.crop`, which instead clamps. -/
def specCrop (img : DynamicImage) (x y w h : Nat) : Option DynamicImage :=
  if x + w ≤ img.width ∧ y + h ≤ img.height then some (img.crop x y w h) else none

/-- State of the shared Tesseract handle's `Mutex` as seen by
`TesseractOcrEngine::ocr`: whether a previous panic while holding the lock
has poisoned it. -/
structure TessEngineState where
  poisoned : Bool
deriving DecidableEq

/-- Result of one `TesseractOcrEngine::ocr` call: the extracted text, or a
panic (every failure in the body goes through `unwrap`). -/
inductive TessCallOutcome
  | ok (text : String)
  | panicked (msg : String)
deriving DecidableEq

/-- `TesseractOcrEngine::ocr`, with the outcomes of the two native calls as
parameters: `self.api.lock().unwrap()` panics if the `Mutex` is poisoned;
`set_image(...).unwrap()` and `get_utf8_text().unwrap()` turn a native error
into a panic while the guard is held, which poisons the `Mutex` for every
later call. -/
def tesseractEngineOcr (st : TessEngineState) (setImageResult : Except String Unit)
    (getTextResult : Except String String) : TessCallOutcome × TessEngineState :=
  if st.poisoned then (.panicked "called unwrap on a poisoned lock", st)
  else
    match setImageResult with
    | .error e => (.panicked e, ⟨true⟩)
    | .ok _ =>
      match getTextResult with
      | .error e => (.panicked e, ⟨true⟩)
      | .ok text => (.ok text, st)

/-- Program counter of one request task running `TesseractOcrEngine::ocr`:
before `lock()`, holding the guard before `set_image`, after `set_image` and
before `get_utf8_text`, and finished (guard dropped). -/
inductive TessPc
  | idle
  | acquired
  | imageSet
  | finished
deriving DecidableEq

/-- Shared state of the service: who holds the Tesseract `Mutex` (`none` if
free) and each task's position in `TesseractOcrEngine::ocr`. -/
structure LockState where
  holder : Option Nat
  pc : Nat → TessPc

/-- Interleaving semantics of concurrent `TesseractOcrEngine::ocr` calls:
`lock` blocks until the `Mutex` is free, `setImage` and `getText` run under
the guard, and the guard is released when the call finishes (end of scope
after `get_utf8_text`). -/
inductive TessStep : LockState → LockState → Prop
  | lock (t : Nat) (s : LockState) : s.pc t = .idle → s.holder = none →
      TessStep s ⟨some t, Function.update s.pc t .acquired⟩
  | setImage (t : Nat) (s : LockState) : s.pc t = .acquired →
      TessStep s ⟨s.holder, Function.update s.pc t .imageSet⟩
  | getText (t : Nat) (s : LockState) : s.pc t = .imageSet →
      TessStep s ⟨none, Function.update s.pc t .finished⟩

/-- Initial state: the `Mutex` is free and no task has entered the local
engine. -/
def initLockState : LockState :=
  ⟨none, fun _ => .idle⟩

/-- States reachable by interleaving local-engine calls. -/
inductive ReachedLockState : LockState → Prop
  | init : ReachedLockState initLockState
  | step {s t : LockState} : ReachedLockState s → TessStep s t → ReachedLockState t

/-- Task `t` is inside the set-image-then-extract region (between a
successful `lock()` and the guard drop). -/
def InTessRegion (s : LockState) (t : Nat) : Prop :=
  s.pc t = .acquired ∨ s.pc t = .imageSet

/-- Concrete 2×2 grayscale image used by concrete instances. -/
def imgGray2x2 : DynamicImage :=
  .luma8 ⟨2, 2, [10, 200, 30, 250]⟩

/-- Concrete 3×3 grayscale image used by concrete instances. -/
def imgGray3x3 : DynamicImage :=
  .luma8 ⟨3, 3, [0, 50, 100, 150, 200, 250, 25, 75, 125]⟩

/-- Grayscale conversion preserves the width. -/
theorem toLuma8_width (img : DynamicImage) : img.toLuma8.width = img.width := by
  cases img <;> rfl

/-- Grayscale conversion preserves the height. -/
theorem toLuma8_height (img : DynamicImage) : img.toLuma8.height = img.height := by
  cases img <;> rfl

/-- Dimensions of the crop result, for every color model: the clamped
rectangle size. -/
theorem crop_dims (img : DynamicImage) (x y w h : Nat) :
    (img.crop x y w h).width = min w (img.width - min x img.width)
    ∧ (img.crop x y w h).height = min h (img.height - min y img.height) := by
  cases img with
  | luma8 i => cases i; exact ⟨rfl, rfl⟩
  | rgb8 w h px => exact ⟨rfl, rfl⟩
  | rgba8 w h px => exact ⟨rfl, rfl⟩

/-- C1: the claim states that a crop rectangle not fully contained in the
image bounds makes the pipeline fail with ValidationError. The code clamps
instead: on a 2×2 image, `Crop(0,0,5,5)` succeeds, the handler answers `OK`
(not `BAD_REQUEST`), and the result is the clamped 2×2 image — while the
spec-modelled crop (`specCrop`) rejects this input. -/
theorem C1_counterexample :
    ocrHandler (.ok (imgGray2x2, .tesseract, [.crop 0 0 5 5])) "sometext" (.ok "")
      = .okDelivered "sometext"
    ∧ transform imgGray2x2 [.crop 0 0 5 5] = .ok (.luma8 ⟨2, 2, [10, 200, 30, 250]⟩)
    ∧ specCrop imgGray2x2 0 0 5 5 = none := by
  refine ⟨by decide, by decide, by decide⟩

/-- C1 (amended): `Crop` never fails; the rectangle is clamped to the image
bounds (`crop_dimms`), and for a rectangle fully contained in the bounds the
result has exactly the requested `width × height`. -/
theorem C1_crop_clamps (img : DynamicImage) (x y w h : Nat) :
    transform img [.crop x y w h] = .ok (img.crop x y w h)
    ∧ (img.crop x y w h).width = min w (img.width - min x img.width)
    ∧ (img.crop x y w h).height = min h (img.height - min y img.height)
    ∧ (x + w ≤ img.width → y + h ≤ img.height →
        (img.crop x y w h).width = w ∧ (img.crop x y w h).height = h) := by
  obtain ⟨hw, hh⟩ := crop_dims img x y w h
  refine ⟨rfl, hw, hh, fun hx hy => ⟨?_, ?_⟩⟩
  · rw [hw]; omega
  · rw [hh]; omega

/-- Witness for `C1_crop_clamps` at a rectangle fully inside a 3×3 image. -/
theorem C1_crop_clamps_witness :
    transform imgGray3x3 [.crop 1 1 2 2] = .ok (imgGray3x3.crop 1 1 2 2)
    ∧ (imgGray3x3.crop 1 1 2 2).width = 2 ∧ (imgGray3x3.crop 1 1 2 2).height = 2 :=
  ⟨(C1_crop_clamps imgGray3x3 1 1 2 2).1,
   ((C1_crop_clamps imgGray3x3 1 1 2 2).2.2.2 (by decide) (by decide)).1,
   ((C1_crop_clamps imgGray3x3 1 1 2 2).2.2.2 (by decide) (by decide)).2⟩

/-- C2: the claim states that `GaussianBlur(0)` and `GaussianBlur(-1)` fail
with ValidationError. The pipeline performs no sigma validation: the
library assertion inside `gaussian_blur_f32` panics the request task, so the
handler outcome is a panic (no `BAD_REQUEST` response is produced). -/
theorem C2_counterexample :
    ocrHandler (.ok (imgGray2x2, .tesseract, [.gaussianBlur 0])) "t" (.ok "")
      = .panicked "sigma must be > 0.0"
    ∧ ocrHandler (.ok (imgGray2x2, .tesseract, [.gaussianBlur (-1)])) "t" (.ok "")
      = .panicked "sigma must be > 0.0" := by
  refine ⟨by decide, by decide⟩

/-- C2 (amended): `GaussianBlur(sigma)` with `sigma ≤ 0` panics via the
blur library's `sigma > 0` assertion instead of failing with
ValidationError; for every `sigma > 0` it succeeds and returns a grayscale
image with the same width and height as the input. -/
theorem C2_gaussian_blur (img : DynamicImage) (sigma : ℚ) :
    (sigma ≤ 0 → transform img [.gaussianBlur sigma] = .error "sigma must be > 0.0")
    ∧ (0 < sigma → ∃ out : Luma8,
        transform img [.gaussianBlur sigma] = .ok (.luma8 out)
        ∧ out.width = img.width ∧ out.height = img.height) := by
  constructor
  · intro hle
    have hnot : ¬ 0 < sigma := not_lt.mpr hle
    simp [transform, applyOperation, gaussianBlurF32, hnot, Except.map]
  · intro hpos
    refine ⟨separableFilterEqual img.toLuma8 (gaussianKernel sigma), ?_, ?_, ?_⟩
    · simp [transform, applyOperation, gaussianBlurF32, hpos, Except.map]
    · exact toLuma8_width img
    · exact toLuma8_height img

/-- Witness for `C2_gaussian_blur` at `sigma = 0` and `sigma = 1.5`. -/
theorem C2_gaussian_blur_witness :
    transform imgGray2x2 [.gaussianBlur 0] = .error "sigma must be > 0.0"
    ∧ ∃ out : Luma8, transform imgGray2x2 [.gaussianBlur (3 / 2)] = .ok (.luma8 out)
        ∧ out.width = 2 ∧ out.height = 2 :=
  ⟨(C2_gaussian_blur imgGray2x2 0).1 (by norm_num),
   (C2_gaussian_blur imgGray2x2 (3 / 2)).2 (by norm_num)⟩

/-- C5: `Binarize(threshold)` converts the image to grayscale and maps every
intensity `v` to `0` when `v ≤ threshold` and to `255` otherwise; in
particular `Binarize(128)` on a uniform image of intensity 128 (of any size)
yields an all-zero image. -/
theorem C5_binarize (img : DynamicImage) (threshold : Nat) :
    applyOperation (.binarize threshold) img =
      .ok (.luma8 ⟨img.toLuma8.width, img.toLuma8.height,
        img.toLuma8.pixels.map fun v => if v ≤ threshold then 0 else 255⟩)
    ∧ ∀ w h : Nat,
        applyOperation (.binarize 128) (.luma8 ⟨w, h, List.replicate (w * h) 128⟩) =
          .ok (.luma8 ⟨w, h, List.replicate (w * h) 0⟩) := by
  refine ⟨rfl, fun w h => ?_⟩
  simp [applyOperation, thresholdMut, DynamicImage.toLuma8, List.map_replicate]

/-- C3: the claim states the orchestrator removes every whitespace character
inside each line before delivery. No normalization exists: with the local
engine returning `"a b"`, the payload handed to `send_message` is `"a b"`
itself, while the spec-modelled normalizer yields `"ab"`. -/
theorem C3_counterexample :
    ocrHandler (.ok (imgGray2x2, .tesseract, [])) "a b" (.ok "") = .okDelivered "a b"
    ∧ specNormalize "a b" = "ab"
    ∧ ("a b" : String) ≠ "ab" := by
  refine ⟨by decide, by decide, by decide⟩

/-- Unfolding of the `ocr` handler on a successfully decoded request. -/
theorem ocrHandler_ok (img : DynamicImage) (engine : OcrEngine) (ops : List Operation)
    (tesseractText : String) (googleLensResult : Except String String) :
    ocrHandler (.ok (img, engine, ops)) tesseractText googleLensResult =
      match transform img ops with
      | .error e => .panicked e
      | .ok _ =>
        match ocrEngineManagerOcr tesseractText googleLensResult engine with
        | .error e => .internalServerError e
        | .ok text => .okDelivered text := rfl

/-- C3 (amended): the orchestrator applies no normalization: whenever the
handler answers `OK`, the payload handed to the delivery collaborator is
exactly the selected engine's raw output. -/
theorem C3_no_normalization (img : DynamicImage) (engine : OcrEngine)
    (ops : List Operation) (tesseractText : String) (googleLensResult : Except String String)
    (text : String)
    (h : ocrHandler (.ok (img, engine, ops)) tesseractText googleLensResult
      = .okDelivered text) :
    ocrEngineManagerOcr tesseractText googleLensResult engine = .ok text := by
  rw [ocrHandler_ok] at h
  cases htr : transform img ops with
  | error e => rw [htr] at h; exact absurd h (by simp)
  | ok mid =>
    rw [htr] at h
    cases hres : ocrEngineManagerOcr tesseractText googleLensResult engine with
    | error e => rw [hres] at h; exact absurd h (by simp)
    | ok t => rw [hres] at h; simp at h; rw [h]

/-- Witness for `C3_no_normalization`: the raw local-engine text is the
delivered payload. -/
theorem C3_no_normalization_witness :
    ocrEngineManagerOcr "a b" (.ok "") .tesseract = .ok "a b" :=
  C3_no_normalization imgGray2x2 .tesseract [] "a b" (.ok "") "a b" (by decide)

/-- C4: the claim states a failed recognition call surfaces a
LocalEngineError to the caller and leaves the shared handle usable. The code
instead panics through `unwrap`, and the panic poisons the `Mutex`, so a
subsequent call whose native operations would both succeed panics as well. -/
theorem C4_counterexample :
    tesseractEngineOcr ⟨false⟩ (.error "set_image failed") (.ok "text")
      = (.panicked "set_image failed", ⟨true⟩)
    ∧ tesseractEngineOcr
        (tesseractEngineOcr ⟨false⟩ (.error "set_image failed") (.ok "text")).2
        (.ok ()) (.ok "next text")
      = (.panicked "called unwrap on a poisoned lock", ⟨true⟩) := by
  refine ⟨by decide, by decide⟩

/-- C4 (amended): a failing `set_image` or `get_utf8_text` panics the
request task via `unwrap` (no error value reaches the caller) and poisons
the `Mutex`; once poisoned, every later call panics at `lock().unwrap()`
regardless of its own native outcomes; only a call with both native
operations succeeding on an unpoisoned handle returns text. -/
theorem C4_unwrap_poisons (setRes : Except String Unit) (getRes : Except String String) :
    (∀ e, setRes = .error e →
      tesseractEngineOcr ⟨false⟩ setRes getRes = (.panicked e, ⟨true⟩))
    ∧ (∀ e, setRes = .ok () → getRes = .error e →
        tesseractEngineOcr ⟨false⟩ setRes getRes = (.panicked e, ⟨true⟩))
    ∧ (∀ st : TessEngineState, st.poisoned = true →
        (tesseractEngineOcr st setRes getRes).1
          = .panicked "called unwrap on a poisoned lock")
    ∧ (∀ t, setRes = .ok () → getRes = .ok t →
        tesseractEngineOcr ⟨false⟩ setRes getRes = (.ok t, ⟨false⟩)) := by
  refine ⟨fun e he => ?_, fun e hs hg => ?_, fun st hp => ?_, fun t hs hg => ?_⟩
  · subst he; rfl
  · subst hs; subst hg; rfl
  · cases st with
    | mk p => cases p with
      | true => rfl
      | false => simp at hp
  · subst hs; subst hg; rfl

/-- Witness for `C4_unwrap_poisons` at concrete native outcomes. -/
theorem C4_unwrap_poisons_witness :
    tesseractEngineOcr ⟨false⟩ (.error "boom") (.ok "text") = (.panicked "boom", ⟨true⟩)
    ∧ (tesseractEngineOcr ⟨true⟩ (.ok ()) (.ok "text")).1
        = .panicked "called unwrap on a poisoned lock"
    ∧ tesseractEngineOcr ⟨false⟩ (.ok ()) (.ok "text") = (.ok "text", ⟨false⟩) :=
  ⟨(C4_unwrap_poisons (.error "boom") (.ok "text")).1 "boom" rfl,
   (C4_unwrap_poisons (.ok ()) (.ok "text")).2.2.1 ⟨true⟩ rfl,
   (C4_unwrap_poisons (.ok ()) (.ok "text")).2.2.2 "text" rfl rfl⟩

/-- Update of the best threshold in one Otsu iteration: it is either kept or
set to the current bin index. -/
theorem otsuStep_bestThreshold (tw tps : ℚ) (hist : Nat → ℚ) (st : OtsuState) (t : Nat) :
    (otsuStep tw tps hist st t).bestThreshold = st.bestThreshold
    ∨ (otsuStep tw tps hist st t).bestThreshold = t := by
  unfold otsuStep
  by_cases h1 : st.broken = true
  · simp [h1]
  · by_cases h2 : st.backgroundWeight + hist t = 0
    · simp [h1, h2]
    · by_cases h3 : tw - (st.backgroundWeight + hist t) = 0
      · simp [h1, h2, h3]
      · simp only [h1, h2, h3, Bool.false_eq_true, if_false]
        split <;> simp

/-- The Otsu scan keeps the best threshold bounded by the largest bin
index. -/
theorem otsu_foldl_bestThreshold_le (tw tps : ℚ) (hist : Nat → ℚ) :
    ∀ (l : List Nat) (st : OtsuState), (∀ x ∈ l, x ≤ 255) → st.bestThreshold ≤ 255 →
      (l.foldl (otsuStep tw tps hist) st).bestThreshold ≤ 255 := by
  intro l
  induction l with
  | nil => intro st _ hst; exact hst
  | cons x xs ih =>
    intro st hmem hst
    refine ih (otsuStep tw tps hist st x) (fun y hy => hmem y (List.mem_cons_of_mem x hy)) ?_
    rcases otsuStep_bestThreshold tw tps hist st x with h | h
    · rw [h]; exact hst
    · rw [h]; exact hmem x (List.mem_cons_self x xs)

/-- The Otsu level is a `u8`: at most 255. -/
theorem otsuLevel_le (img : Luma8) : otsuLevel img ≤ 255 := by
  unfold otsuLevel
  refine otsu_foldl_bestThreshold_le _ _ _ (List.range 256) ⟨0, 0, 0, 0, false⟩ ?_ ?_
  · intro x hx
    have := List.mem_range.mp hx
    omega
  · exact Nat.zero_le 255

/-- C6: on the same image, the thresholds applied by
`OtsuBinarize(invertThreshold=false)` and `OtsuBinarize(invertThreshold=true)`
are `t1 = otsuLevel` (the variance-maximizing split point of the grayscale
histogram) and `t2 = 255 - t1`; both arms then binarize the grayscale image
with that threshold using the inclusive rule. -/
theorem C6_otsu_invert (img : DynamicImage) (b : Bool) :
    otsuThresholdValue true img = 255 - otsuThresholdValue false img
    ∧ otsuThresholdValue false img = otsuLevel img.toLuma8
    ∧ otsuLevel img.toLuma8 ≤ 255
    ∧ applyOperation (.otsuBinarize b) img =
        .ok (.luma8 (thresholdMut img.toLuma8 (otsuThresholdValue b img))) :=
  ⟨rfl, rfl, otsuLevel_le img.toLuma8, rfl⟩

/-- C7: the pipeline output is a pure deterministic function of the image
and the operation list (equal inputs give identical results), and the
operations are applied strictly in input order: running a list is running
its head and then the tail on the intermediate image, and splitting the list
anywhere composes sequentially with no reordering or fusion. -/
theorem C7_pipeline_pure_in_order :
    (∀ (img₁ img₂ : DynamicImage) (ops₁ ops₂ : List Operation),
      img₁ = img₂ → ops₁ = ops₂ → transform img₁ ops₁ = transform img₂ ops₂)
    ∧ (∀ (img : DynamicImage) (op : Operation) (ops : List Operation),
        transform img (op :: ops) =
          (applyOperation op img).bind fun next => transform next ops)
    ∧ (∀ (img : DynamicImage) (ops₁ ops₂ : List Operation),
        transform img (ops₁ ++ ops₂) =
          (transform img ops₁).bind fun mid => transform mid ops₂) := by
  refine ⟨fun img₁ img₂ ops₁ ops₂ hi ho => by rw [hi, ho], ?_, ?_⟩
  · intro img op ops
    cases h : applyOperation op img with
    | error e => simp [transform, h, Except.bind]
    | ok next => simp [transform, h, Except.bind]
  · intro img ops₁
    induction ops₁ generalizing img with
    | nil => intro ops₂; rfl
    | cons op rest ih =>
      intro ops₂
      cases h : applyOperation op img with
      | error e => simp [transform, h, Except.bind]
      | ok next => simp [transform, h, Except.bind, ih next ops₂]

/-- Witness for `C7_pipeline_pure_in_order` at concrete inputs. -/
theorem C7_pipeline_witness :
    transform imgGray2x2 [.invert] = transform imgGray2x2 [.invert]
    ∧ transform imgGray2x2 ([.invert] ++ [.binarize 3]) =
        (transform imgGray2x2 [.invert]).bind fun mid => transform mid [.binarize 3] :=
  ⟨C7_pipeline_pure_in_order.1 imgGray2x2 imgGray2x2 [.invert] [.invert] rfl rfl,
   C7_pipeline_pure_in_order.2.2 imgGray2x2 [.invert] [.binarize 3]⟩

/-- Appending the empty string on the right is the identity. -/
theorem str_append_empty (a : String) : a ++ "" = a := by
  apply String.ext
  simp

/-- Appending the empty string on the left is the identity. -/
theorem str_empty_append (a : String) : "" ++ a = a := by
  apply String.ext
  simp

/-- String concatenation is associative. -/
theorem str_append_assoc (a b c : String) : a ++ b ++ c = a ++ (b ++ c) := by
  apply String.ext
  simp

/-- Concatenation, in order, of the rendering of each list element — the
shape in which the claim states the extracted text. -/
def concatMapStr (f : α → String) : List α → String
  | [] => ""
  | x :: xs => f x ++ concatMapStr f xs

/-- One word as the claim renders it: its plain text followed by its
separator when one is present. -/
def renderedWord (w : LensWord) : String :=
  w.plain_text ++ w.text_separator.getD ""

/-- One line as the claim renders it: its words in order. -/
def renderedLine (l : LensLine) : String :=
  concatMapStr renderedWord l.words

/-- One paragraph as the claim renders it: its lines in order with a newline
character appended. -/
def renderedParagraph (p : LensParagraph) : String :=
  concatMapStr renderedLine p.lines ++ "\n"

/-- The word loop accumulates exactly the rendered words. -/
theorem foldl_pushWord (ws : List LensWord) (acc : String) :
    ws.foldl pushWord acc = acc ++ concatMapStr renderedWord ws := by
  induction ws generalizing acc with
  | nil => simp [concatMapStr, str_append_empty]
  | cons w ws ih =>
    have hw : pushWord acc w = acc ++ renderedWord w := by
      unfold pushWord renderedWord
      cases w.text_separator with
      | none => simp [str_append_empty]
      | some sep => simp [str_append_assoc]
    simp only [List.foldl_cons, concatMapStr, hw, ih, str_append_assoc]

/-- The line loop accumulates exactly the rendered lines. -/
theorem foldl_lensLines (ls : List LensLine) (acc : String) :
    ls.foldl (fun acc2 l => l.words.foldl pushWord acc2) acc
      = acc ++ concatMapStr renderedLine ls := by
  induction ls generalizing acc with
  | nil => simp [concatMapStr, str_append_empty]
  | cons l ls ih =>
    simp only [List.foldl_cons, concatMapStr, renderedLine]
    rw [foldl_pushWord, ih]
    simp only [str_append_assoc]

/-- The paragraph loop accumulates exactly the rendered paragraphs. -/
theorem foldl_lensParagraphs (ps : List LensParagraph) (acc : String) :
    ps.foldl
      (fun acc p => (p.lines.foldl (fun acc2 l => l.words.foldl pushWord acc2) acc) ++ "\n")
      acc
      = acc ++ concatMapStr renderedParagraph ps := by
  induction ps generalizing acc with
  | nil => simp [concatMapStr, str_append_empty]
  | cons p ps ih =>
    simp only [List.foldl_cons, concatMapStr, renderedParagraph]
    rw [foldl_lensLines, ih]
    simp only [str_append_assoc]

/-- The §8 scenario: two paragraphs, each one line of two words with a space
separator after the first word. -/
def scenarioLayout : LensTextLayout :=
  ⟨[⟨[⟨[⟨"word1", some " "⟩, ⟨"word2", none⟩]⟩]⟩,
    ⟨[⟨[⟨"word3", some " "⟩, ⟨"word4", none⟩]⟩]⟩]⟩

/-- C8: the claim states the delivered end state in the §8 scenario is
`"word1word2\nword3word4"`. The service applies no normalization, so the
handler delivers the raw extraction `"word1 word2\nword3 word4\n"` (with the
separator spaces and the trailing newline), which differs from the claimed
string. -/
theorem C8_counterexample :
    ocrHandler (.ok (imgGray2x2, .googleLens, [])) ""
        (googleLensResultOfResponse ⟨some ⟨some ⟨some scenarioLayout⟩⟩⟩)
      = .okDelivered "word1 word2\nword3 word4\n"
    ∧ ("word1 word2\nword3 word4\n" : String) ≠ "word1word2\nword3word4" := by
  refine ⟨by decide, by decide⟩

/-- C8 (amended): for every successfully decoded response the extracted text
is the concatenation, over paragraphs then lines then words in order, of
each word's plain text followed by its separator when present, with a
newline appended after each paragraph; that text is returned as `Ok`
unchanged; and in the §8 two-paragraph scenario it is
`"word1 word2\nword3 word4\n"` (no whitespace normalization happens and a
newline follows the last paragraph). -/
theorem C8_extraction (layout : LensTextLayout) :
    extractFromLayout layout = concatMapStr renderedParagraph layout.paragraphs
    ∧ googleLensResultOfResponse ⟨some ⟨some ⟨some layout⟩⟩⟩ = .ok (extractFromLayout layout)
    ∧ extractFromLayout scenarioLayout = "word1 word2\nword3 word4\n" := by
  refine ⟨?_, rfl, by decide⟩
  unfold extractFromLayout
  rw [foldl_lensParagraphs, str_empty_append]

/-- A task inside the local-engine critical region holds the `Mutex`. -/
theorem tessRegion_holder {u : LockState} (hs : ReachedLockState u) :
    ∀ t, InTessRegion u t → u.holder = some t := by
  induction hs with
  | init =>
    intro t ht
    cases ht with
    | inl h => exact absurd h (by simp [initLockState])
    | inr h => exact absurd h (by simp [initLockState])
  | step hr hstep ih =>
    cases hstep with
    | lock t0 s0 hpc hhold =>
      intro t ht
      by_cases he : t = t0
      · subst he; rfl
      · refine absurd (ih t ?_) (by simp [hhold])
        cases ht with
        | inl h =>
          simp only [Function.update_noteq he] at h
          exact Or.inl h
        | inr h =>
          simp only [Function.update_noteq he] at h
          exact Or.inr h
    | setImage t0 s0 hpc =>
      intro t ht
      by_cases he : t = t0
      · subst he; exact ih t (Or.inl hpc)
      · refine ih t ?_
        cases ht with
        | inl h =>
          simp only [Function.update_noteq he] at h
          exact Or.inl h
        | inr h =>
          simp only [Function.update_noteq he] at h
          exact Or.inr h
    | getText t0 s0 hpc =>
      intro t ht
      by_cases he : t = t0
      · subst he
        cases ht with
        | inl h =>
          simp only [Function.update_same] at h
          exact absurd h (by simp)
        | inr h =>
          simp only [Function.update_same] at h
          exact absurd h (by simp)
      · refine absurd (Option.some.inj (Eq.trans (ih t ?_).symm (ih t0 (Or.inr hpc)))) he
        cases ht with
        | inl h =>
          simp only [Function.update_noteq he] at h
          exact Or.inl h
        | inr h =>
          simp only [Function.update_noteq he] at h
          exact Or.inr h

/-- C9: in every reachable interleaving of concurrent local-engine calls, at
most one task is inside the set-image-then-extract region at any instant:
the single global `Mutex` is acquired before `set_image` and held until
`get_utf8_text` completes, so two tasks in the region are the same task. -/
theorem C9_mutual_exclusion (s : LockState) (hs : ReachedLockState s) (t1 t2 : Nat)
    (h1 : InTessRegion s t1) (h2 : InTessRegion s t2) : t1 = t2 := by
  have e1 := tessRegion_holder hs t1 h1
  have e2 := tessRegion_holder hs t2 h2
  rw [e1] at e2
  exact Option.some.inj e2

/-- Concrete reachable state in which task 0 has just acquired the lock. -/
def lockedState : LockState :=
  ⟨some 0, Function.update (fun _ => TessPc.idle) 0 .acquired⟩

/-- Witness for `C9_mutual_exclusion` at the state where task 0 holds the
lock. -/
theorem C9_mutual_exclusion_witness :
    ReachedLockState lockedState ∧ InTessRegion lockedState 0 ∧ (0 : Nat) = 0 := by
  have hr : ReachedLockState lockedState :=
    ReachedLockState.step ReachedLockState.init (TessStep.lock 0 initLockState rfl rfl)
  have hin : InTessRegion lockedState 0 := Or.inl (by simp [lockedState, Function.update_same])
  exact ⟨hr, hin, C9_mutual_exclusion lockedState hr 0 0 hin hin⟩

/-- C10: for every successfully decoded remote response with the
`objects_response`, `text`, or `text_layout` field absent, the remote
recognition call succeeds with the empty string rather than an error; with
zero paragraphs the result is likewise the empty string. -/
theorem C10_missing_fields (r : LensServerResponse) :
    (r.objects_response = none → googleLensResultOfResponse r = .ok "")
    ∧ (∀ o, r.objects_response = some o → o.text = none →
        googleLensResultOfResponse r = .ok "")
    ∧ (∀ o tx, r.objects_response = some o → o.text = some tx → tx.text_layout = none →
        googleLensResultOfResponse r = .ok "")
    ∧ (∀ o tx layout, r.objects_response = some o → o.text = some tx →
        tx.text_layout = some layout → layout.paragraphs = [] →
        googleLensResultOfResponse r = .ok "") := by
  refine ⟨fun h => ?_, fun o h1 h2 => ?_, fun o tx h1 h2 h3 => ?_,
    fun o tx layout h1 h2 h3 h4 => ?_⟩
  · simp [googleLensResultOfResponse, googleLensExtract, h]
  · simp [googleLensResultOfResponse, googleLensExtract, h1, h2]
  · simp [googleLensResultOfResponse, googleLensExtract, h1, h2, h3]
  · simp [googleLensResultOfResponse, googleLensExtract, extractFromLayout, h1, h2, h3, h4]

/-- Witness for `C10_missing_fields` at each concrete missing-field
response. -/
theorem C10_missing_fields_witness :
    googleLensResultOfResponse ⟨none⟩ = .ok ""
    ∧ googleLensResultOfResponse ⟨some ⟨none⟩⟩ = .ok ""
    ∧ googleLensResultOfResponse ⟨some ⟨some ⟨none⟩⟩⟩ = .ok ""
    ∧ googleLensResultOfResponse ⟨some ⟨some ⟨some ⟨[]⟩⟩⟩⟩ = .ok "" :=
  ⟨(C10_missing_fields ⟨none⟩).1 rfl,
   (C10_missing_fields ⟨some ⟨none⟩⟩).2.1 ⟨none⟩ rfl rfl,
   (C10_missing_fields ⟨some ⟨some ⟨none⟩⟩⟩).2.2.1 ⟨some ⟨none⟩⟩ ⟨none⟩ rfl rfl rfl,
   (C10_missing_fields ⟨some ⟨some ⟨some ⟨[]⟩⟩⟩⟩).2.2.2 ⟨some ⟨some ⟨[]⟩⟩⟩ ⟨some ⟨[]⟩⟩ ⟨[]⟩
     rfl rfl rfl rfl⟩
